import Mathlib

/-!
Verification of the jira-local-sync issue-to-document conversion pipeline.

Shallow embedding of the three core modules:
* `jira_client.py`   — paginated search (`search_issues`) and the
  connectivity probe (`test_connection`);
* `markdown_converter.py` — the pure rendering functions
  (`issue_to_markdown` and its helpers);
* `processor.py`     — the streaming orchestration (`process_issues`,
  `test_connection`).

External collaborators (the remote Jira service, the `jira2markdown`
transform, Python's `datetime.fromisoformat`) are modelled as explicit
function parameters or as Lean functions following their documented
contracts.  Python exceptions in fallible collaborators are modelled with
`Except`; machine integers are `Nat` (sizes are non-negative byte counts).
-/

namespace JiraSync

/-! ## Data model (spec section 3)

Optional attributes of the Python objects are probed with `hasattr` /
truthiness in the source; each such attribute becomes an `Option` field
(`none` = attribute missing or `None`). -/

/-- Attachment descriptor: filename, optional content URL, optional byte
size (`hasattr` probes in `format_attachments`). -/
structure Attachment where
  filename : String
  content : Option String
  size : Option Nat
deriving DecidableEq, Repr

/-- Parent link: key and summary of the containing item. -/
structure Parent where
  key : String
  summary : String
deriving DecidableEq, Repr

/-- The `issue.fields` object, with every optionally-present attribute as
an `Option`. -/
structure IssueFields where
  summary : String
  issuetype_name : String
  status_name : String
  priority : Option String
  assignee : Option String
  reporter : Option String
  created : Option String
  updated : Option String
  parent : Option Parent
  sprint : Option String
  labels : List String
  description : Option String
  attachment : List Attachment
deriving DecidableEq, Repr

/-- An issue record: unique key plus its fields object. -/
structure Issue where
  key : String
  fields : IssueFields
deriving DecidableEq, Repr

/-- A comment record; `author` is the display name (absent when the raw
object lacks the attribute), `created` a raw timestamp string. -/
structure Comment where
  author : Option String
  created : Option String
  body : String
deriving DecidableEq, Repr

/-! ## Timestamp parsing and formatting (`MarkdownConverter._format_date`)

The source calls `datetime.fromisoformat(date_str.replace('Z', '+00:00'))`
and renders with `strftime("%Y-%m-%d %H:%M")`.  `fromisoformat` is Python
standard library (external); it is modelled here as a total parser of the
fixed timestamp format described in the spec: `YYYY-MM-DD`, an optional
single separator character followed by `HH[:MM[:SS[.f{1,6}]]]`, and an
optional numeric UTC offset `±HH`, `±HHMM` or `±HH:MM`.  Only the fields
that `strftime("%Y-%m-%d %H:%M")` renders are retained; the offset is
validated but not converted (the rendering stays in the record's own
offset). -/

/-- Calendar fields retained from a parsed timestamp. -/
structure DateTimeParts where
  year : Nat
  month : Nat
  day : Nat
  hour : Nat
  minute : Nat
deriving DecidableEq, Repr

/-- Numeric value of a digit list (most significant first). -/
def digitsToNat (cs : List Char) : Nat :=
  cs.foldl (fun a c => 10 * a + (c.toNat - 48)) 0

/-- Consume exactly `n` decimal digits from the front of `cs`. -/
def parseFixedDigits (n : Nat) (cs : List Char) : Option (Nat × List Char) :=
  let pre := cs.take n
  if pre.length = n && pre.all Char.isDigit then
    some (digitsToNat pre, cs.drop n)
  else
    none

/-- Whether `cs` is a valid (possibly absent) numeric UTC offset suffix. -/
def validOffset : List Char → Bool
  | [] => true
  | c :: rest =>
    (c = '+' || c = '-') &&
    (match parseFixedDigits 2 rest with
     | none => false
     | some (oh, r1) =>
       oh < 24 &&
       (match r1 with
        | [] => true
        | ':' :: r2 =>
          (match parseFixedDigits 2 r2 with
           | some (om, r3) => om < 60 && r3.isEmpty
           | none => false)
        | _ =>
          (match parseFixedDigits 2 r1 with
           | some (om, r3) => om < 60 && r3.isEmpty
           | none => false)))

/-- Days in a month of a given year (Gregorian rules). -/
def daysInMonth (y m : Nat) : Nat :=
  if m = 2 then
    if y % 4 = 0 && (y % 100 ≠ 0 || y % 400 = 0) then 29 else 28
  else if m = 4 || m = 6 || m = 9 || m = 11 then 30
  else 31

/-- Parse `HH[:MM[:SS[.f{1,6}]]]` returning hour, minute and remainder. -/
def parseTime (cs : List Char) : Option (Nat × Nat × List Char) :=
  match parseFixedDigits 2 cs with
  | none => none
  | some (h, r1) =>
    if h ≥ 24 then none else
    match r1 with
    | ':' :: r2 =>
      match parseFixedDigits 2 r2 with
      | none => none
      | some (m, r3) =>
        if m ≥ 60 then none else
        match r3 with
        | ':' :: r4 =>
          match parseFixedDigits 2 r4 with
          | none => none
          | some (s, r5) =>
            if s ≥ 60 then none else
            match r5 with
            | '.' :: r6 =>
              let ds := r6.takeWhile Char.isDigit
              if ds.length = 0 || ds.length > 6 then none
              else some (h, m, r6.drop ds.length)
            | _ => some (h, m, r5)
        | _ => some (h, m, r3)
    | _ => some (h, 0, r1)

/-- Parse the fixed timestamp format (date, optional time, optional
offset), validating calendar ranges; `none` on any malformation. -/
def parseIso (s : String) : Option DateTimeParts :=
  match parseFixedDigits 4 s.data with
  | none => none
  | some (y, r1) =>
    if y = 0 then none else
    match r1 with
    | '-' :: r2 =>
      match parseFixedDigits 2 r2 with
      | none => none
      | some (mo, r3) =>
        if mo = 0 || mo > 12 then none else
        match r3 with
        | '-' :: r4 =>
          match parseFixedDigits 2 r4 with
          | none => none
          | some (d, r5) =>
            if d = 0 || d > daysInMonth y mo then none else
            match r5 with
            | [] => some ⟨y, mo, d, 0, 0⟩
            | _sep :: r6 =>
              match parseTime r6 with
              | none => none
              | some (h, mi, r7) =>
                if validOffset r7 then some ⟨y, mo, d, h, mi⟩ else none
        | _ => none
    | _ => none

/-- Zero-pad a natural number to two digits (`strftime` `%m`, `%d`, `%H`,
`%M`). -/
def pad2 (n : Nat) : String :=
  if n < 10 then "0" ++ toString n else toString n

/-- Zero-pad a natural number to four digits (`strftime` `%Y`). -/
def pad4 (n : Nat) : String :=
  if n < 10 then "000" ++ toString n
  else if n < 100 then "00" ++ toString n
  else if n < 1000 then "0" ++ toString n
  else toString n

/-- Render of `strftime("%Y-%m-%d %H:%M")` on the retained fields. -/
def renderDateTime (p : DateTimeParts) : String :=
  pad4 p.year ++ "-" ++ pad2 p.month ++ "-" ++ pad2 p.day ++ " " ++
    pad2 p.hour ++ ":" ++ pad2 p.minute

/-- Character-level worker for Python's `str.replace`: replace each
non-overlapping occurrence of `pat`, left to right; `skip` counts matched
characters still to drop after an emitted replacement. -/
def replace_go (pat rep : List Char) : Nat → List Char → List Char
  | _, [] => []
  | Nat.succ k, _ :: rest => replace_go pat rep k rest
  | 0, c :: rest =>
    if pat ≠ [] && pat.isPrefixOf (c :: rest) then
      rep ++ replace_go pat rep (pat.length - 1) rest
    else
      c :: replace_go pat rep 0 rest

/-- Python's `str.replace(pattern, replacement)`: every non-overlapping
occurrence, scanned left to right. -/
def py_replace (s pattern replacement : String) : String :=
  ⟨replace_go pattern.data replacement.data 0 s.data⟩

/-- The converter's `_format_date`: replace every `Z` with `+00:00`, parse,
render as `YYYY-MM-DD HH:MM`; on parse failure return the input unchanged
(the `except` branch of the source). -/
def format_date (date_str : String) : String :=
  match parseIso (py_replace date_str "Z" "+00:00") with
  | some dt => renderDateTime dt
  | none => date_str

/-! ## File-size formatting (`MarkdownConverter._format_file_size`)

Python renders `f"{x:.1f}"` on the exact binary double `n / 1024^k`; as
the divisor is a power of two the double is exact for all realistic `n`,
so the printed value is the exact rational rounded to one decimal with
ties to even — implemented here on `Nat`. -/

/-- Round `a / b` to the nearest integer, ties to even. -/
def roundHalfEven (a b : Nat) : Nat :=
  let q := a / b
  let r := a % b
  if 2 * r < b then q
  else if 2 * r > b then q + 1
  else if q % 2 = 0 then q else q + 1

/-- Fixed-point rendering of `a / b` to one decimal digit. -/
def fmtOneDecimal (a b : Nat) : String :=
  let t := roundHalfEven (10 * a) b
  toString (t / 10) ++ "." ++ toString (t % 10)

/-- The converter's `_format_file_size`. -/
def format_file_size (size_bytes : Nat) : String :=
  if size_bytes < 1024 then
    toString size_bytes ++ " B"
  else if size_bytes < 1024 * 1024 then
    fmtOneDecimal size_bytes 1024 ++ " KB"
  else if size_bytes < 1024 * 1024 * 1024 then
    fmtOneDecimal size_bytes (1024 * 1024) ++ " MB"
  else
    fmtOneDecimal size_bytes (1024 * 1024 * 1024) ++ " GB"

/-! ## Markup transform and section renderers (`markdown_converter.py`)

`jira2markdown.convert` is an external collaborator; per the spec it never
propagates failure (the `except` fallback in `convert_jira_markup` returns
the input unchanged), so it is modelled as a total parameter
`jira_to_md : String → String`. -/

/-- The converter's `convert_jira_markup`: empty/absent text renders as
`""`; otherwise the external transform is applied. -/
def convert_jira_markup (jira_to_md : String → String) (text : Option String) : String :=
  match text with
  | none => ""
  | some t => if t = "" then "" else jira_to_md t

/-- The converter's `format_issue_metadata`: mandatory key/type/status
lines, presence-driven optional lines, always an assignee line. -/
def format_issue_metadata (issue : Issue) : String :=
  let fields := issue.fields
  let metadata_lines : List String :=
    ["**Key:** " ++ issue.key,
     "**Type:** " ++ fields.issuetype_name,
     "**Status:** " ++ fields.status_name]
    ++ (match fields.priority with
        | some p => ["**Priority:** " ++ p]
        | none => [])
    ++ [(match fields.assignee with
         | some a => "**Assignee:** " ++ a
         | none => "**Assignee:** Unassigned")]
    ++ (match fields.reporter with
        | some r => ["**Reporter:** " ++ r]
        | none => [])
    ++ (match fields.created with
        | some c => ["**Created:** " ++ format_date c]
        | none => [])
    ++ (match fields.updated with
        | some u => ["**Updated:** " ++ format_date u]
        | none => [])
    ++ (match fields.parent with
        | some p => ["**Parent:** [" ++ p.key ++ "] " ++ p.summary]
        | none => [])
    ++ (match fields.sprint with
        | some sp => ["**Sprint:** " ++ sp]
        | none => [])
    ++ (if fields.labels.isEmpty then []
        else ["**Labels:** " ++
          String.intercalate " " (fields.labels.map (fun label => "`" ++ label ++ "`"))])
  String.intercalate "\n" metadata_lines

/-- The converter's `format_issue_description`: placeholder for an absent
or empty description, otherwise the transformed text. -/
def format_issue_description (jira_to_md : String → String) (issue : Issue) : String :=
  match issue.fields.description with
  | none => "_No description provided._"
  | some d => if d = "" then "_No description provided._" else convert_jira_markup jira_to_md (some d)

/-- The `comment_lines` list built by the loop in `format_comments`: four
lines per comment (header, blank, transformed body, blank). -/
def comment_lines (jira_to_md : String → String) : List Comment → List String
  | [] => []
  | comment :: rest =>
    ("### " ++ comment.author.getD "Unknown" ++ " - " ++
      (match comment.created with
       | some d => format_date d
       | none => "Unknown date"))
    :: ""
    :: convert_jira_markup jira_to_md (some comment.body)
    :: ""
    :: comment_lines jira_to_md rest

/-- The converter's `format_comments`. -/
def format_comments (jira_to_md : String → String) (comments : List Comment) : String :=
  if comments.isEmpty then "_No comments._"
  else String.intercalate "\n" (comment_lines jira_to_md comments)

/-- One bullet line of `format_attachments`: name, content URL (`"#"`
placeholder when absent), human-readable size (`"Unknown size"` when the
size attribute is absent). -/
def attachment_line (a : Attachment) : String :=
  "- [" ++ a.filename ++ "](" ++ a.content.getD "#" ++ ") (" ++
    (match a.size with
     | some n => format_file_size n
     | none => "Unknown size") ++ ")"

/-- One line per attachment, as in the loop of `format_attachments`. -/
def attachment_lines (issue : Issue) : List String :=
  issue.fields.attachment.map attachment_line

/-- The converter's `format_attachments`. -/
def format_attachments (issue : Issue) : String :=
  if issue.fields.attachment.isEmpty then "_No attachments._"
  else String.intercalate "\n" (attachment_lines issue)

/-- Python truthiness of the `comments` argument of `issue_to_markdown`
(`list | None`): truthy iff non-`None` and non-empty. -/
def comments_truthy : Option (List Comment) → Bool
  | none => false
  | some l => !l.isEmpty

/-- The `sections` list accumulated by `issue_to_markdown`, mirroring the
appends of the source one block at a time.  `today` stands for
`datetime.now().strftime("%Y-%m-%d")` (ambient render date). -/
def issue_sections (jira_to_md : String → String) (issue : Issue)
    (comments : Option (List Comment)) (include_comments include_attachments : Bool)
    (today : String) : List String :=
  let sections : List String := []
  let sections := sections ++ ["# [" ++ issue.key ++ "] " ++ issue.fields.summary]
  let sections := sections ++ [""]
  let sections := sections ++ [format_issue_metadata issue]
  let sections := sections ++ [""]
  let sections := sections ++ ["## Description"]
  let sections := sections ++ [""]
  let sections := sections ++ [format_issue_description jira_to_md issue]
  let sections := sections ++ [""]
  let sections :=
    if include_comments && comments_truthy comments then
      sections ++ ["## Comments", "", format_comments jira_to_md (comments.getD []), ""]
    else sections
  let sections :=
    if include_attachments then
      sections ++ ["## Attachments", "", format_attachments issue, ""]
    else sections
  sections ++ ["---", "*Exported from Jira: " ++ today ++ "*"]

/-- Split a character list at a separator (the groups between
separators, in order; `n` separators give `n + 1` groups). -/
def split_chars (sep : Char) : List Char → List (List Char)
  | [] => [[]]
  | c :: rest =>
    match split_chars sep rest with
    | [] => [[c]]
    | g :: gs => if c = sep then [] :: g :: gs else (c :: g) :: gs

/-- The lines of a document: its text split at newline characters. -/
def lines_of (s : String) : List String :=
  (split_chars (Char.ofNat 10) s.data).map String.mk

/-- The converter's `issue_to_markdown`: the joined `sections` list. -/
def issue_to_markdown (jira_to_md : String → String) (issue : Issue)
    (comments : Option (List Comment)) (include_comments include_attachments : Bool)
    (today : String) : String :=
  String.intercalate "\n" (issue_sections jira_to_md issue comments
    include_comments include_attachments today)

/-! ## Paginated search (`JiraClient.search_issues`)

The remote service is modelled as a deterministic backing store: an
ordered list `store` of records; a page request
`search(startAt, maxResults)` answers `(store.drop startAt).take
maxResults`, which is exactly the offset+limit pagination protocol of the
spec.  `max_results : Option Nat` models Python's `int | None`; the
source's `if max_results and len(issues) >= max_results` is a truthiness
test, so `some 0` behaves like `none`. -/

/-- One remote page: the records from offset `start_at`, at most
`max_results` of them (the underlying `self.client.search_issues`). -/
def search_batch (store : List α) (start_at max_results : Nat) : List α :=
  (store.drop start_at).take max_results

/-- The source's `if max_results and len(issues) >= max_results` guard:
`max_results` is truthy (non-`None` and non-zero) and the accumulated
count `n` has reached it. -/
def reached_max_limit (max_results : Option Nat) (n : Nat) : Bool :=
  match max_results with
  | none => false
  | some k => decide (k ≠ 0) && decide (k ≤ n)

/-- The `while True` loop of `JiraClient.search_issues`: accumulate pages
of size 100, stop on an empty batch, on reaching a truthy `max_results`
(truncating), or on a short batch. -/
def search_loop (store : List α) (max_results : Option Nat) (start_at : Nat)
    (issues : List α) : List α :=
  let batch := search_batch store start_at 100
  if hb : batch.isEmpty then issues
  else
    let issues2 := issues ++ batch
    if reached_max_limit max_results issues2.length then
      issues2.take (max_results.getD 0)
    else if hs : batch.length < 100 then issues2
    else search_loop store max_results (start_at + 100) issues2
termination_by store.length - start_at
decreasing_by
  have hlen : batch.length = min 100 (store.length - start_at) := by
    simp [batch, search_batch]
  omega

/-- The client's `search_issues` over a deterministic backing store. -/
def search_issues (store : List α) (max_results : Option Nat) : List α :=
  search_loop store max_results 0 []

/-- Expected value of the paginated search over a deterministic store: the
whole store when the limit is absent or zero (Python falsiness), otherwise
the first `k` records. -/
def search_expected (store : List α) : Option Nat → List α
  | none => store
  | some k => if k = 0 then store else store.take k

/-! ## Connectivity probe (`JiraClient.test_connection`,
`JiraProcessor.test_connection`)

The outcome of the underlying `server_info()` call (including the lazy
connect inside the `client` property) is modelled as
`Except String ServerInfo`: `.error e` is any raised exception with
message `e`. -/

/-- The fields read from the server-info dictionary (`.get` may be
absent, hence `Option`). -/
structure ServerInfo where
  version : Option String
  buildNumber : Option String
  serverTitle : Option String
deriving DecidableEq, Repr

/-- The dictionary returned by `JiraClient.test_connection`: the success
shape carries `connected: True` plus url/version/build/title, the failure
shape `connected: False` plus the error string. -/
inductive TestConnectionResult where
  | success (url : String) (version buildNumber serverTitle : Option String)
  | failure (error : String)
deriving DecidableEq, Repr

/-- The `connected` entry of the result dictionary. -/
def TestConnectionResult.connected : TestConnectionResult → Bool
  | .success _ _ _ _ => true
  | .failure _ => false

/-- The client's `test_connection`: wrap a successful `server_info()` in
the success dictionary, any exception in the failure dictionary. -/
def client_test_connection (url : String) (server_info : Except String ServerInfo) :
    TestConnectionResult :=
  match server_info with
  | .ok si => .success url si.version si.buildNumber si.serverTitle
  | .error e => .failure e

/-- The processor's `test_connection`: call the client probe and read the
`connected` entry (the surrounding `try/except` collapses any residual
exception to `False`; the modelled call is total, so the `try` body always
completes). -/
def processor_test_connection (url : String) (server_info : Except String ServerInfo) :
    Bool :=
  (client_test_connection url server_info).connected

/-! ## Streaming orchestration (`JiraProcessor.process_issues`)

Collaborator outcomes are explicit parameters:
* `get_comments key` — the client's `get_issue_comments`, which may raise
  (`.error`);
* `render issue comments` — `converter.issue_to_markdown`, which may raise
  on duck-typed records missing required attributes (`.error`).
The generator is embedded as the list of pairs it yields. -/

/-- The `comments` value computed for one issue inside the loop of
`process_issues`: `None` when comments are disabled, otherwise the fetched
list, an empty list if the fetch raised. -/
def effective_comments (get_comments : String → Except String (List Comment))
    (include_comments : Bool) (issue : Issue) : Option (List Comment) :=
  if include_comments then
    match get_comments issue.key with
    | .ok cs => some cs
    | .error _ => some []
  else none

/-- The loop of `process_issues` over an already-fetched issue list:
for each issue in order, compute its comments, render, yield
`(key, markdown)` on success, skip (continue) on a render exception. -/
def process_issues (get_comments : String → Except String (List Comment))
    (render : Issue → Option (List Comment) → Except String String)
    (include_comments : Bool) : List Issue → List (String × String)
  | [] => []
  | issue :: rest =>
    match render issue (effective_comments get_comments include_comments issue) with
    | .ok markdown =>
      (issue.key, markdown) :: process_issues get_comments render include_comments rest
    | .error _ => process_issues get_comments render include_comments rest

/-! ## Concrete fixtures used by witnesses -/

/-- A fully populated sample fields object. -/
def sample_fields : IssueFields :=
  { summary := "Fix the widget"
    issuetype_name := "Bug"
    status_name := "Open"
    priority := some "High"
    assignee := none
    reporter := some "Ana Dev"
    created := some "2025-12-11T10:30:45.123-0400"
    updated := none
    parent := none
    sprint := none
    labels := []
    description := some "hello *world*"
    attachment := [] }

/-- Sample issue used by witnesses. -/
def sample_issue : Issue := { key := "PROJ-1", fields := sample_fields }

/-- Second sample issue (the failing one in the skip scenario). -/
def sample_issue2 : Issue := { key := "PROJ-2", fields := sample_fields }

/-- Third sample issue. -/
def sample_issue3 : Issue := { key := "PROJ-3", fields := sample_fields }

/-- Sample comment. -/
def sample_comment : Comment :=
  { author := some "Bob", created := some "2025-12-11T10:30:45Z", body := "nice" }

/-- Comment-fetch stub that always succeeds with no comments. -/
def sample_get_comments : String → Except String (List Comment) := fun _ => .ok []

/-- Render stub that raises exactly on the issue with key `PROJ-2`. -/
def sample_render : Issue → Option (List Comment) → Except String String :=
  fun i _ => if i.key = "PROJ-2" then .error "TypeError" else .ok "doc"

/-! ## Theorems -/

/-- C5: for every issue whose description is absent or empty,
`format_issue_description` returns the fixed "no description" placeholder;
for a non-empty description it returns exactly the markup-transform of
that description. -/
theorem format_issue_description_spec (jira_to_md : String → String) (issue : Issue) :
    ((issue.fields.description = none ∨ issue.fields.description = some "") →
      format_issue_description jira_to_md issue = "_No description provided._") ∧
    (∀ d, issue.fields.description = some d → d ≠ "" →
      format_issue_description jira_to_md issue = jira_to_md d) := by
  constructor
  · rintro (h | h) <;> simp [format_issue_description, h]
  · intro d hd hne
    simp [format_issue_description, hd, hne, convert_jira_markup]

/-- Witness for C5 at a concrete issue with a non-empty description. -/
theorem format_issue_description_spec_witness :
    format_issue_description (fun s => s ++ "!") sample_issue = "hello *world*" ++ "!" :=
  (format_issue_description_spec (fun s => s ++ "!") sample_issue).2
    "hello *world*" rfl (by decide)

/-- C7: for every input string, `_format_date` either renders the parsed
timestamp as `YYYY-MM-DD HH:MM` (with `Z` rewritten to the zero offset
`+00:00` before parsing) or, on parse failure, returns the input string
unchanged; being a total function it never raises. -/
theorem format_date_spec (s : String) :
    (∃ dt, parseIso (py_replace s "Z" "+00:00") = some dt ∧
      format_date s = renderDateTime dt) ∨
    (parseIso (py_replace s "Z" "+00:00") = none ∧ format_date s = s) := by
  cases h : parseIso (py_replace s "Z" "+00:00") with
  | none => exact Or.inr ⟨rfl, by simp [format_date, h]⟩
  | some dt => exact Or.inl ⟨dt, rfl, by simp [format_date, h]⟩

/-- C8: `_format_file_size` uses binary thresholds — bytes below 1024,
then one-decimal KB/MB/GB — and maps the four reference inputs to the
documented strings. -/
theorem format_file_size_spec (n : Nat) :
    (n < 1024 → format_file_size n = toString n ++ " B") ∧
    (1024 ≤ n → n < 1024 * 1024 →
      format_file_size n = fmtOneDecimal n 1024 ++ " KB") ∧
    (1024 * 1024 ≤ n → n < 1024 * 1024 * 1024 →
      format_file_size n = fmtOneDecimal n (1024 * 1024) ++ " MB") ∧
    (1024 * 1024 * 1024 ≤ n →
      format_file_size n = fmtOneDecimal n (1024 * 1024 * 1024) ++ " GB") ∧
    format_file_size 500 = "500 B" ∧
    format_file_size 5120 = "5.0 KB" ∧
    format_file_size 3145728 = "3.0 MB" ∧
    format_file_size 2147483648 = "2.0 GB" := by
  refine ⟨fun h => by simp [format_file_size, h],
    fun h1 h2 => ?_, fun h1 h2 => ?_, fun h1 => ?_, by decide, by decide, by decide, ?_⟩
  · have hn : ¬ n < 1024 := by omega
    simp [format_file_size, hn, h2]
  · have hn : ¬ n < 1024 := by omega
    have hn2 : ¬ n < 1024 * 1024 := by omega
    simp [format_file_size, hn, hn2, h2]
  · have hn : ¬ n < 1024 := by omega
    have hn2 : ¬ n < 1024 * 1024 := by omega
    have hn3 : ¬ n < 1024 * 1024 * 1024 := by omega
    simp [format_file_size, hn, hn2, hn3]
  · decide

/-- Witness for C8 applying the KB threshold clause at 5120. -/
theorem format_file_size_spec_witness :
    format_file_size 5120 = fmtOneDecimal 5120 1024 ++ " KB" :=
  (format_file_size_spec 5120).2.1 (by decide) (by decide)

/-- C9: the connectivity probe never raises — for every outcome of the
underlying server-info call, the client returns the success dictionary
(`connected = true` plus version/build/title) on success and the failure
dictionary (`connected = false` plus the error string) on any exception,
and the processor collapses every outcome to a boolean. -/
theorem test_connection_spec (url : String) (server_info : Except String ServerInfo) :
    (∀ si, server_info = .ok si →
      client_test_connection url server_info =
        .success url si.version si.buildNumber si.serverTitle ∧
      (client_test_connection url server_info).connected = true) ∧
    (∀ e, server_info = .error e →
      client_test_connection url server_info = .failure e ∧
      (client_test_connection url server_info).connected = false) ∧
    processor_test_connection url server_info =
      (client_test_connection url server_info).connected := by
  refine ⟨fun si h => ?_, fun e h => ?_, rfl⟩
  · subst h; exact ⟨rfl, rfl⟩
  · subst h; exact ⟨rfl, rfl⟩

/-- Witness for C9 at a concrete successful server-info outcome. -/
theorem test_connection_spec_witness :
    client_test_connection "https://jira.example.com"
        (.ok ⟨some "9.4.0", some "940001", some "Example Jira"⟩) =
      .success "https://jira.example.com" (some "9.4.0") (some "940001")
        (some "Example Jira") :=
  ((test_connection_spec "https://jira.example.com"
      (.ok ⟨some "9.4.0", some "940001", some "Example Jira"⟩)).1
    ⟨some "9.4.0", some "940001", some "Example Jira"⟩ rfl).1

/-- Terminal case of the search loop: once the offset has passed the end
of the store, the next batch is empty and the accumulated prefix (the
whole store) is returned. -/
theorem search_loop_stop {α : Type} (store : List α) (mr : Option Nat) (s : Nat)
    (hs : store.length ≤ s)
    (hk : ∀ k, mr = some k → k ≠ 0 → s < k) :
    search_loop store mr s (store.take s) = search_expected store mr := by
  rw [search_loop]
  have hbe : search_batch store s 100 = [] := by
    simp [search_batch, List.drop_eq_nil_of_le hs]
  simp only [hbe, List.isEmpty_nil, dite_true]
  rw [List.take_of_length_le hs]
  cases mr with
  | none => rfl
  | some k =>
    by_cases hk0 : k = 0
    · simp [search_expected, hk0]
    · have hlk : store.length ≤ k := le_of_lt (lt_of_le_of_lt hs (hk k rfl hk0))
      simp only [search_expected, if_neg hk0]
      rw [List.take_of_length_le hlk]

/-- Invariant of the search loop: entered at offset `s` with the first `s`
records accumulated (and, under a truthy limit `k`, with `s` still below
`k`), it produces the expected search result.  `fuel` bounds the distance
to the end of the store. -/
theorem search_loop_eq {α : Type} (store : List α) (mr : Option Nat) :
    ∀ fuel s, store.length ≤ s + fuel → s ≤ store.length →
      (∀ k, mr = some k → k ≠ 0 → s < k) →
      search_loop store mr s (store.take s) = search_expected store mr := by
  intro fuel
  induction fuel with
  | zero =>
    intro s h1 h2 hk
    exact search_loop_stop store mr s (by omega) hk
  | succ fuel ih =>
    intro s h1 h2 hk
    by_cases hend : store.length ≤ s
    · exact search_loop_stop store mr s hend hk
    · have hslt : s < store.length := by omega
      rw [search_loop]
      have hblen : (search_batch store s 100).length = min 100 (store.length - s) := by
        simp [search_batch]
      have hbne : ¬ (search_batch store s 100).isEmpty := by
        rw [List.isEmpty_iff_length_eq_zero, hblen]
        omega
      simp only [dif_neg hbne]
      have hacc : store.take s ++ search_batch store s 100 = store.take (s + 100) := by
        rw [List.take_add]; rfl
      rw [hacc]
      have hlen2 : (store.take (s + 100)).length = min (s + 100) store.length := by
        simp
      cases mr with
      | none =>
        rw [if_neg (by simp [reached_max_limit])]
        by_cases hshort : (search_batch store s 100).length < 100
        · rw [dif_pos hshort]
          have hle : store.length ≤ s + 100 := by omega
          rw [List.take_of_length_le hle]; rfl
        · rw [dif_neg hshort]
          have hfull : s + 100 ≤ store.length := by omega
          exact ih (s + 100) (by omega) hfull (fun k e => by cases e)
      | some k =>
        by_cases hk0 : k = 0
        · rw [if_neg (by simp [reached_max_limit, hk0])]
          by_cases hshort : (search_batch store s 100).length < 100
          · rw [dif_pos hshort]
            have hle : store.length ≤ s + 100 := by omega
            rw [List.take_of_length_le hle]
            simp [search_expected, hk0]
          · rw [dif_neg hshort]
            have hfull : s + 100 ≤ store.length := by omega
            rw [ih (s + 100) (by omega) hfull (fun k1 e hne => absurd (by cases e; exact hk0) hne)]
        · by_cases hreach : k ≤ min (s + 100) store.length
          · have hcT : reached_max_limit (some k) (store.take (s + 100)).length = true := by
              simp only [reached_max_limit, Bool.and_eq_true, decide_eq_true_eq]
              exact ⟨hk0, by rw [hlen2]; omega⟩
            rw [if_pos hcT]
            have hks : k ≤ s + 100 := le_trans hreach (Nat.min_le_left _ _)
            simp only [Option.getD_some, search_expected, if_neg hk0]
            rw [List.take_take, Nat.min_eq_left hks]
          · have hcF : ¬ (reached_max_limit (some k) (store.take (s + 100)).length = true) := by
              simp only [reached_max_limit, Bool.and_eq_true, decide_eq_true_eq]
              rintro ⟨hne, hle⟩
              rw [hlen2] at hle
              exact hreach hle
            rw [if_neg hcF]
            have hreach2 : min (s + 100) store.length < k := by omega
            by_cases hshort : (search_batch store s 100).length < 100
            · rw [dif_pos hshort]
              have hle : store.length ≤ s + 100 := by omega
              have hlk : store.length ≤ k := by
                have := Nat.min_eq_right hle
                omega
              rw [List.take_of_length_le hle]
              simp only [search_expected, if_neg hk0]
              rw [List.take_of_length_le hlk]
            · rw [dif_neg hshort]
              have hfull : s + 100 ≤ store.length := by omega
              refine ih (s + 100) (by omega) hfull ?_
              intro k1 e hne
              cases e
              have := Nat.min_eq_left hfull
              omega

/-- The paginated search over a deterministic store always equals its
expected value: the whole store, or the first `k` records under a truthy
limit `k`. -/
theorem search_issues_eq {α : Type} (store : List α) (mr : Option Nat) :
    search_issues store mr = search_expected store mr := by
  have h := search_loop_eq store mr store.length 0 (by omega) (Nat.zero_le _)
    (fun k _ hne => Nat.pos_of_ne_zero hne)
  simpa [search_issues] using h

/-- C2: over every deterministic backing store, `search_issues` with no
limit returns as many records as with the limit set to the total count,
and with a limit `0 < K <` total it returns exactly the first `K` records
in service order. -/
theorem search_issues_pagination {α : Type} (store : List α) (K : Nat) :
    (search_issues store none).length = (search_issues store (some store.length)).length ∧
    (0 < K → K < store.length →
      search_issues store (some K) = store.take K ∧
      (search_issues store (some K)).length = K) := by
  have hn := search_issues_eq store none
  have ht := search_issues_eq store (some store.length)
  constructor
  · by_cases hlen0 : store.length = 0
    · have hnil : store = [] := List.eq_nil_of_length_eq_zero hlen0
      subst hnil
      have ht0 := search_issues_eq ([] : List α) (some 0)
      simp only [search_expected, if_pos rfl] at ht0
      simp only [List.length_nil]
      rw [hn, ht0]
      simp [search_expected]
    · simp only [search_expected, if_neg hlen0, List.take_length] at hn ht
      rw [hn, ht]
  · intro hK0 hKlt
    have hK := search_issues_eq store (some K)
    have hKne : K ≠ 0 := by omega
    simp only [search_expected, if_neg hKne] at hK
    refine ⟨hK, ?_⟩
    rw [hK, List.length_take]
    omega

/-- Witness for C2 at a concrete 150-record store with limit 105. -/
theorem search_issues_pagination_witness :
    search_issues (List.range 150) (some 105) = (List.range 150).take 105 :=
  ((search_issues_pagination (List.range 150) 105).2 (by omega)
    (by simp)).1

/-- C10: a limit of `0` is falsy in the source's `if max_results and ...`
guard, so it caps nothing: `search_issues` with `max_results = 0` returns
the full result set, exactly as with no limit. -/
theorem search_issues_zero_limit {α : Type} (store : List α) :
    search_issues store (some 0) = store ∧
    search_issues store (some 0) = search_issues store none := by
  have h0 := search_issues_eq store (some 0)
  have hn := search_issues_eq store none
  simp only [search_expected, if_pos rfl] at h0 hn
  exact ⟨h0, h0.trans hn.symm⟩

/-- When every issue on the list renders successfully, `process_issues`
yields exactly one pair per issue, in order, keyed by the issue keys. -/
theorem process_issues_keys_of_all_ok (g : String → Except String (List Comment))
    (r : Issue → Option (List Comment) → Except String String) (ic : Bool)
    (l : List Issue)
    (hok : ∀ i ∈ l, ∃ md, r i (effective_comments g ic i) = .ok md) :
    (process_issues g r ic l).map Prod.fst = l.map Issue.key := by
  induction l with
  | nil => rfl
  | cons i rest ih =>
    obtain ⟨md, hmd⟩ := hok i (List.mem_cons_self i rest)
    have hrest := ih (fun j hj => hok j (List.mem_cons_of_mem i hj))
    simp [process_issues, hmd, hrest]

/-- The processing loop distributes over list append. -/
theorem process_issues_append (g : String → Except String (List Comment))
    (r : Issue → Option (List Comment) → Except String String) (ic : Bool)
    (l1 l2 : List Issue) :
    process_issues g r ic (l1 ++ l2) =
      process_issues g r ic l1 ++ process_issues g r ic l2 := by
  induction l1 with
  | nil => rfl
  | cons i rest ih =>
    cases h : r i (effective_comments g ic i) with
    | ok md => simp [process_issues, h, ih]
    | error e => simp [process_issues, h, ih]

/-- C1: if exactly one issue of the fetched list raises during render and
all the others succeed, `process_issues` yields one pair per surviving
issue in search order — `N - 1` pairs in total — and the failing issue's
key (unique per the data model) is absent from the output; the loop
itself is a total function, so it completes without raising. -/
theorem process_issues_skips_failing (g : String → Except String (List Comment))
    (r : Issue → Option (List Comment) → Except String String) (ic : Bool)
    (l1 l2 : List Issue) (bad : Issue)
    (hbad : ∃ e, r bad (effective_comments g ic bad) = .error e)
    (hok : ∀ i ∈ l1 ++ l2, ∃ md, r i (effective_comments g ic i) = .ok md)
    (hkey : bad.key ∉ (l1 ++ l2).map Issue.key) :
    process_issues g r ic (l1 ++ bad :: l2) =
      process_issues g r ic l1 ++ process_issues g r ic l2 ∧
    (process_issues g r ic (l1 ++ bad :: l2)).map Prod.fst =
      (l1 ++ l2).map Issue.key ∧
    (process_issues g r ic (l1 ++ bad :: l2)).length =
      (l1 ++ bad :: l2).length - 1 ∧
    bad.key ∉ (process_issues g r ic (l1 ++ bad :: l2)).map Prod.fst := by
  obtain ⟨e, he⟩ := hbad
  have hsplit : process_issues g r ic (l1 ++ bad :: l2) =
      process_issues g r ic l1 ++ process_issues g r ic l2 := by
    rw [process_issues_append, show process_issues g r ic (bad :: l2) =
      process_issues g r ic l2 from by simp [process_issues, he]]
  have hkeys : (process_issues g r ic (l1 ++ bad :: l2)).map Prod.fst =
      (l1 ++ l2).map Issue.key := by
    rw [hsplit, ← process_issues_append]
    exact process_issues_keys_of_all_ok g r ic (l1 ++ l2) hok
  refine ⟨hsplit, hkeys, ?_, ?_⟩
  · have hlen := congrArg List.length hkeys
    simp only [List.length_map, List.length_append, List.length_cons] at hlen
    simp only [List.length_append, List.length_cons]
    omega
  · rw [hkeys]
    exact hkey

/-- Witness for C1: three fetched issues, the middle one raises during
render; the two pairs for the surviving issues are yielded in order. -/
theorem process_issues_skips_failing_witness :
    process_issues sample_get_comments sample_render true
        ([sample_issue] ++ sample_issue2 :: [sample_issue3]) =
      process_issues sample_get_comments sample_render true [sample_issue] ++
        process_issues sample_get_comments sample_render true [sample_issue3] :=
  (process_issues_skips_failing sample_get_comments sample_render true
    [sample_issue] [sample_issue3] sample_issue2
    ⟨"TypeError", rfl⟩
    (by
      intro i hi
      simp only [List.mem_append, List.mem_singleton] at hi
      rcases hi with h | h <;> subst h <;> exact ⟨"doc", rfl⟩)
    (by decide)).1

/-- C6: `format_comments` renders the fixed "no comments" placeholder for
an empty sequence; for a non-empty sequence it joins four lines per
comment, and the block of comment `i` sits at offset `4 * i` — its header
line carrying the author's display name (or the "Unknown" fallback) and
its third line the transformed body — so blocks appear in input order. -/
theorem format_comments_spec (jira_to_md : String → String) (comments : List Comment) :
    (comments = [] → format_comments jira_to_md comments = "_No comments._") ∧
    (comments ≠ [] →
      format_comments jira_to_md comments =
        String.intercalate "\n" (comment_lines jira_to_md comments)) ∧
    (comment_lines jira_to_md comments).length = 4 * comments.length ∧
    (∀ i c, comments[i]? = some c →
      (comment_lines jira_to_md comments)[4 * i]? =
        some ("### " ++ c.author.getD "Unknown" ++ " - " ++
          (match c.created with
           | some d => format_date d
           | none => "Unknown date")) ∧
      (comment_lines jira_to_md comments)[4 * i + 2]? =
        some (convert_jira_markup jira_to_md (some c.body))) := by
  refine ⟨fun h => by simp [format_comments, h], fun h => ?_, ?_, ?_⟩
  · have : ¬ comments.isEmpty := by simpa [List.isEmpty_iff] using h
    simp [format_comments, this]
  · induction comments with
    | nil => rfl
    | cons c rest ih => simp [comment_lines, ih]; ring
  · induction comments with
    | nil => intro i c h; simp at h
    | cons c0 rest ih =>
      intro i c h
      cases i with
      | zero =>
        simp only [List.getElem?_cons_zero, Option.some_inj] at h
        subst h
        exact ⟨rfl, rfl⟩
      | succ i =>
        simp only [List.getElem?_cons_succ] at h
        have hrec := ih i c h
        have h4 : 4 * (i + 1) = 4 * i + 1 + 1 + 1 + 1 := by ring
        have h42 : 4 * (i + 1) + 2 = 4 * i + 2 + 1 + 1 + 1 + 1 := by ring
        rw [h42, h4]
        simpa [comment_lines, List.getElem?_cons_succ] using hrec

/-- Witness for C6 at a singleton comment list. -/
theorem format_comments_spec_witness :
    (comment_lines (fun s => s) [sample_comment])[0]? =
      some ("### " ++ (sample_comment.author.getD "Unknown") ++ " - " ++
        (match sample_comment.created with
         | some d => format_date d
         | none => "Unknown date")) :=
  ((format_comments_spec (fun s => s) [sample_comment]).2.2.2 0 sample_comment rfl).1

/-- The `sections` list of `issue_to_markdown`, decomposed into its six
fixed-order blocks; the comments block is governed by the source's
truthiness guard, stated propositionally. -/
theorem issue_sections_decomp (jira_to_md : String → String) (issue : Issue)
    (comments : Option (List Comment)) (ic ia : Bool) (today : String) :
    issue_sections jira_to_md issue comments ic ia today =
      ["# [" ++ issue.key ++ "] " ++ issue.fields.summary, ""]
      ++ [format_issue_metadata issue, ""]
      ++ ["## Description", "", format_issue_description jira_to_md issue, ""]
      ++ (if ic = true ∧ comments ≠ none ∧ comments ≠ some [] then
            ["## Comments", "", format_comments jira_to_md (comments.getD []), ""]
          else [])
      ++ (if ia = true then
            ["## Attachments", "", format_attachments issue, ""]
          else [])
      ++ ["---", "*Exported from Jira: " ++ today ++ "*"] := by
  cases ic <;> cases ia <;> rcases comments with _ | (_ | ⟨c, cs⟩) <;>
    simp [issue_sections, comments_truthy]

/-- C3: `issue_to_markdown` is the join of its section list, and that list
is the concatenation, in fixed order, of title line, metadata block,
description section, comments section (present only when
`include_comments` is true and the comments argument is non-null and
non-empty), attachments section (present iff `include_attachments`,
independent of attachment data), and the footer. -/
theorem issue_to_markdown_section_order (jira_to_md : String → String) (issue : Issue)
    (comments : Option (List Comment)) (ic ia : Bool) (today : String) :
    issue_to_markdown jira_to_md issue comments ic ia today =
      String.intercalate "\n" (issue_sections jira_to_md issue comments ic ia today) ∧
    issue_sections jira_to_md issue comments ic ia today =
      ["# [" ++ issue.key ++ "] " ++ issue.fields.summary, ""]
      ++ [format_issue_metadata issue, ""]
      ++ ["## Description", "", format_issue_description jira_to_md issue, ""]
      ++ (if ic = true ∧ comments ≠ none ∧ comments ≠ some [] then
            ["## Comments", "", format_comments jira_to_md (comments.getD []), ""]
          else [])
      ++ (if ia = true then
            ["## Attachments", "", format_attachments issue, ""]
          else [])
      ++ ["---", "*Exported from Jira: " ++ today ++ "*"] :=
  ⟨rfl, issue_sections_decomp jira_to_md issue comments ic ia today⟩

/-- Data of an append of strings (structure eta makes this definitional). -/
theorem string_data_append (s t : String) : (s ++ t).data = s.data ++ t.data := rfl

/-- Strings differing in their first character differ. -/
theorem string_ne_of_head1 {s w : String} {c d : Char} {u v : List Char}
    (hs : s.data = c :: u) (hw : w.data = d :: v) (hcd : c ≠ d) : s ≠ w := by
  apply String.ne_of_data_ne
  rw [hs, hw]
  intro h
  exact hcd (List.cons.inj h).1

/-- Strings differing in their second character differ. -/
theorem string_ne_of_head2 {s w : String} {c1 c2 d1 d2 : Char} {u v : List Char}
    (hs : s.data = c1 :: c2 :: u) (hw : w.data = d1 :: d2 :: v) (hcd : c2 ≠ d2) : s ≠ w := by
  apply String.ne_of_data_ne
  rw [hs, hw]
  intro h
  exact hcd (List.cons.inj (List.cons.inj h).2).1

/-- Strings differing in their third character differ. -/
theorem string_ne_of_head3 {s w : String} {c1 c2 c3 d1 d2 d3 : Char} {u v : List Char}
    (hs : s.data = c1 :: c2 :: c3 :: u) (hw : w.data = d1 :: d2 :: d3 :: v)
    (hcd : c3 ≠ d3) : s ≠ w := by
  apply String.ne_of_data_ne
  rw [hs, hw]
  intro h
  exact hcd (List.cons.inj (List.cons.inj (List.cons.inj h).2).2).1

/-- The accumulator of `String.intercalate.go` stays a prefix of the
result, at the character level. -/
theorem intercalate_go_data (sep : String) :
    ∀ (l : List String) (acc : String),
      ∃ t, (String.intercalate.go acc sep l).data = acc.data ++ t := by
  intro l
  induction l with
  | nil => intro acc; exact ⟨[], by simp [String.intercalate.go]⟩
  | cons a as ih =>
    intro acc
    obtain ⟨t, ht⟩ := ih (acc ++ sep ++ a)
    refine ⟨sep.data ++ a.data ++ t, ?_⟩
    rw [String.intercalate.go, ht, string_data_append, string_data_append]
    simp [List.append_assoc]

/-- The join of a non-empty list of strings starts with its head, at the
character level. -/
theorem intercalate_cons_data (sep a : String) (l : List String) :
    ∃ t, (String.intercalate sep (a :: l)).data = a.data ++ t := by
  rw [String.intercalate]
  exact intercalate_go_data sep l a

/-- The title line of a rendered issue begins `"# ["`, so it is never a
`"## "`-style header, whatever the key and summary are. -/
theorem title_line_ne_header (k s w : String) (hw : ∃ r, w.data = '#' :: '#' :: r) :
    ("# [" ++ k ++ "] " ++ s) ≠ w := by
  obtain ⟨r, hr⟩ := hw
  have hs : ∃ u, ("# [" ++ k ++ "] " ++ s).data = '#' :: ' ' :: u := ⟨_, rfl⟩
  obtain ⟨u, hu⟩ := hs
  exact string_ne_of_head2 hu hr (by decide)

/-- The metadata block begins with its `"**Key:** "` line, so it is never
a string starting with `'#'`. -/
theorem format_issue_metadata_ne_header (issue : Issue) (w : String)
    (hw : ∃ r, w.data = '#' :: r) :
    format_issue_metadata issue ≠ w := by
  obtain ⟨r, hr⟩ := hw
  have hshape : ∃ rest, format_issue_metadata issue =
      String.intercalate "\n" (("**Key:** " ++ issue.key) :: rest) := ⟨_, rfl⟩
  obtain ⟨rest, hrest⟩ := hshape
  obtain ⟨t, ht⟩ := intercalate_cons_data "\n" ("**Key:** " ++ issue.key) rest
  rw [hrest]
  have hs : ∃ u, (String.intercalate "\n" (("**Key:** " ++ issue.key) :: rest)).data =
      '*' :: u := by
    rw [ht]
    exact ⟨_, rfl⟩
  obtain ⟨u, hu⟩ := hs
  exact string_ne_of_head1 hu hr (by decide)

/-- The footer line begins `"*Exported"`, so it is never a string starting
with `'#'`, whatever the render date is. -/
theorem footer_ne_header (today w : String) (hw : ∃ r, w.data = '#' :: r) :
    ("*Exported from Jira: " ++ today ++ "*") ≠ w := by
  obtain ⟨r, hr⟩ := hw
  have hs : ∃ u, ("*Exported from Jira: " ++ today ++ "*").data = '*' :: u := ⟨_, rfl⟩
  obtain ⟨u, hu⟩ := hs
  exact string_ne_of_head1 hu hr (by decide)
  
/-- A rendered attachments section starts with `'_'` (placeholder) or
`'-'` (bullet line), never with `'#'`. -/
theorem format_attachments_ne_header (issue : Issue) (w : String)
    (hw : ∃ r, w.data = '#' :: r) :
    format_attachments issue ≠ w := by
  obtain ⟨r, hr⟩ := hw
  rcases hatt : issue.fields.attachment with _ | ⟨a, arest⟩
  · have he : format_attachments issue = "_No attachments._" := by
      simp [format_attachments, hatt]
    rw [he]
    have hs : ∃ u, ("_No attachments._" : String).data = '_' :: u := ⟨_, rfl⟩
    obtain ⟨u, hu⟩ := hs
    exact string_ne_of_head1 hu hr (by decide)
  · have hne : ¬ issue.fields.attachment.isEmpty := by simp [hatt]
    have he : format_attachments issue =
        String.intercalate "\n" (attachment_lines issue) := by
      simp [format_attachments, hne]
    have hcons : attachment_lines issue =
        attachment_line a :: List.map attachment_line arest := by
      simp [attachment_lines, hatt]
    have hhead : ∃ u, (attachment_line a).data = '-' :: u := ⟨_, rfl⟩
    obtain ⟨u, hu⟩ := hhead
    obtain ⟨t, ht⟩ := intercalate_cons_data "\n" (attachment_line a)
      (List.map attachment_line arest)
    rw [he, hcons]
    have hs : ∃ u2, (String.intercalate "\n"
        (attachment_line a :: List.map attachment_line arest)).data = '-' :: u2 := by
      rw [ht, hu]
      exact ⟨_, rfl⟩
    obtain ⟨u2, hu2⟩ := hs
    exact string_ne_of_head1 hu2 hr (by decide)

/-- A non-empty rendered comments section starts with a `"### "` header,
so it is never a `"## "`-plus-space-style section header. -/
theorem format_comments_cons_ne_header (jira_to_md : String → String)
    (c : Comment) (cs : List Comment) (w : String)
    (hw : ∃ r, w.data = '#' :: '#' :: ' ' :: r) :
    format_comments jira_to_md (c :: cs) ≠ w := by
  obtain ⟨r, hr⟩ := hw
  have he : format_comments jira_to_md (c :: cs) =
      String.intercalate "\n" (comment_lines jira_to_md (c :: cs)) := by
    simp [format_comments]
  have hshape : ∃ hd tl, comment_lines jira_to_md (c :: cs) = hd :: tl ∧
      ∃ u, hd.data = '#' :: '#' :: '#' :: u :=
    ⟨_, _, rfl, ⟨_, rfl⟩⟩
  obtain ⟨hd, tl, hcons, u, hu⟩ := hshape
  obtain ⟨t, ht⟩ := intercalate_cons_data "\n" hd tl
  rw [he, hcons]
  have hs : ∃ u2, (String.intercalate "\n" (hd :: tl)).data = '#' :: '#' :: '#' :: u2 := by
    rw [ht, hu]
    exact ⟨_, rfl⟩
  obtain ⟨u2, hu2⟩ := hs
  exact string_ne_of_head3 hu2 hr (by decide)

set_option maxRecDepth 4000 in
/-- C4 counterexample: with `include_comments = true` but a `None` comments
argument, the rendered document has no `"## Comments"` line and no
metadata header line at all, so header presence does not follow the
include-flags alone (and there is no metadata section header to contain). -/
theorem issue_to_markdown_headers_counterexample :
    "## Comments" ∉ lines_of
      (issue_to_markdown (fun s => s) sample_issue none true true "2026-10-12") ∧
    "## Metadata" ∉ lines_of
      (issue_to_markdown (fun s => s) sample_issue none true true "2026-10-12") ∧
    "## Comments" ∉ issue_sections (fun s => s) sample_issue none true true "2026-10-12" := by
  refine ⟨by decide, by decide, by decide⟩

/-- C4 (amended): for every issue, comments argument and flag
combination, the rendered document's text starts with the issue key
wrapped in brackets after the title marker, and its section list always
contains the `"## Description"` header (the metadata block carries no
header of its own); provided the rendered description text is not itself
one of the two header lines, the section list contains `"## Comments"`
iff `include_comments` is true and the comments argument is non-null and
non-empty, and contains `"## Attachments"` iff `include_attachments` is
true. -/
theorem issue_to_markdown_headers (jira_to_md : String → String) (issue : Issue)
    (comments : Option (List Comment)) (ic ia : Bool) (today : String)
    (hd1 : format_issue_description jira_to_md issue ≠ "## Comments")
    (hd2 : format_issue_description jira_to_md issue ≠ "## Attachments") :
    (∃ t, (issue_to_markdown jira_to_md issue comments ic ia today).data =
      ("# [" ++ issue.key ++ "]").data ++ t) ∧
    "## Description" ∈ issue_sections jira_to_md issue comments ic ia today ∧
    ("## Comments" ∈ issue_sections jira_to_md issue comments ic ia today ↔
      ic = true ∧ comments ≠ none ∧ comments ≠ some []) ∧
    ("## Attachments" ∈ issue_sections jira_to_md issue comments ic ia today ↔
      ia = true) := by
  refine ⟨?_, ?_, ⟨?_, ?_⟩, ⟨?_, ?_⟩⟩
  · have hsec : ∃ rest, issue_sections jira_to_md issue comments ic ia today =
        ("# [" ++ issue.key ++ "] " ++ issue.fields.summary) :: rest := by
      rw [issue_sections_decomp]
      exact ⟨_, rfl⟩
    obtain ⟨rest, hrest⟩ := hsec
    obtain ⟨t, ht⟩ := intercalate_cons_data "\n"
      ("# [" ++ issue.key ++ "] " ++ issue.fields.summary) rest
    refine ⟨' ' :: (issue.fields.summary.data ++ t), ?_⟩
    have hm : issue_to_markdown jira_to_md issue comments ic ia today =
        String.intercalate "\n" (issue_sections jira_to_md issue comments ic ia today) :=
      rfl
    rw [hm, hrest, ht]
    simp only [string_data_append]
    simp [List.append_assoc]
  · rw [issue_sections_decomp]
    simp
  · intro hmem
    rw [issue_sections_decomp] at hmem
    by_contra hcond
    rw [if_neg hcond] at hmem
    have n1 : "## Comments" ≠ "# [" ++ issue.key ++ "] " ++ issue.fields.summary :=
      fun h => title_line_ne_header issue.key issue.fields.summary "## Comments"
        ⟨_, rfl⟩ h.symm
    have n2 : "## Comments" ≠ format_issue_metadata issue :=
      fun h => format_issue_metadata_ne_header issue "## Comments" ⟨_, rfl⟩ h.symm
    have n3 : "## Comments" ≠ format_issue_description jira_to_md issue :=
      fun h => hd1 h.symm
    have n4 : "## Comments" ≠ format_attachments issue :=
      fun h => format_attachments_ne_header issue "## Comments" ⟨_, rfl⟩ h.symm
    have n5 : "## Comments" ≠ "*Exported from Jira: " ++ today ++ "*" :=
      fun h => footer_ne_header today "## Comments" ⟨_, rfl⟩ h.symm
    have m1 : "## Comments" ≠ "" := by decide
    have m2 : "## Comments" ≠ "## Description" := by decide
    have m3 : "## Comments" ≠ "---" := by decide
    have m4 : "## Comments" ≠ "## Attachments" := by decide
    by_cases hia2 : ia = true
    · rw [if_pos hia2] at hmem
      simp [n1, n2, n3, n4, n5, m1, m2, m3, m4] at hmem
    · rw [if_neg hia2] at hmem
      simp [n1, n2, n3, n5, m1, m2, m3] at hmem
  · intro h
    rw [issue_sections_decomp, if_pos h]
    simp
  · intro hmem
    rw [issue_sections_decomp] at hmem
    by_contra hia2
    rw [if_neg hia2] at hmem
    have n1 : "## Attachments" ≠ "# [" ++ issue.key ++ "] " ++ issue.fields.summary :=
      fun h => title_line_ne_header issue.key issue.fields.summary "## Attachments"
        ⟨_, rfl⟩ h.symm
    have n2 : "## Attachments" ≠ format_issue_metadata issue :=
      fun h => format_issue_metadata_ne_header issue "## Attachments" ⟨_, rfl⟩ h.symm
    have n3 : "## Attachments" ≠ format_issue_description jira_to_md issue :=
      fun h => hd2 h.symm
    have n5 : "## Attachments" ≠ "*Exported from Jira: " ++ today ++ "*" :=
      fun h => footer_ne_header today "## Attachments" ⟨_, rfl⟩ h.symm
    have m1 : "## Attachments" ≠ "" := by decide
    have m2 : "## Attachments" ≠ "## Description" := by decide
    have m3 : "## Attachments" ≠ "---" := by decide
    have m4 : "## Attachments" ≠ "## Comments" := by decide
    by_cases hcc : ic = true ∧ comments ≠ none ∧ comments ≠ some []
    · rw [if_pos hcc] at hmem
      obtain ⟨hic, hnn, hne⟩ := hcc
      rcases comments with _ | clist
      · exact hnn rfl
      · rcases clist with _ | ⟨c, cs⟩
        · exact hne rfl
        · have n6 : "## Attachments" ≠ format_comments jira_to_md (c :: cs) :=
            fun h => format_comments_cons_ne_header jira_to_md c cs "## Attachments"
              ⟨_, rfl⟩ h.symm
          simp [Option.getD, n1, n2, n3, n5, n6, m1, m2, m3, m4] at hmem
    · rw [if_neg hcc] at hmem
      simp [n1, n2, n3, n5, m1, m2, m3] at hmem
  · intro h
    rw [issue_sections_decomp, if_pos h]
    simp

/-- Witness for C4 (amended) at a concrete issue whose description is
plain text. -/
theorem issue_to_markdown_headers_witness :
    "## Description" ∈ issue_sections (fun s => s) sample_issue none true true "2026-10-12" :=
  (issue_to_markdown_headers (fun s => s) sample_issue none true true "2026-10-12"
    (by decide) (by decide)).2.1

end JiraSync
